import Mathlib

/-!
Shallow embedding of `src/main.rs` of the r9ktg repository: an R9K-style
Telegram deduplication bot.  The embedded core is the fingerprint store and
the duplicate-decision / override engine of `impl Robot9000`:
`hash_message`, `store_message`, `allow_message`, `forbid_message`,
`is_admin`, `ensure_admin`, `import_document` (with its per-record fold),
`reply_command` and `process_message`.

Modelling conventions:
* The sled database is an association list from fingerprint keys to byte
  values, together with an environmental oracle `fail` saying on which keys
  a store operation hits an I/O error (sled errors are surfaced through
  `eyre::Result`; the oracle makes the failure paths expressible).
* The `hasher : Box<Xxh3>` field is reset before every use
  (`hash_message`, lines 103-108), so it is a pure function of the fed
  bytes; it is embedded as the function field `digest`.  The concrete
  XXH3-128 digest of the external `xxhash_rust` crate is not re-implemented;
  everything downstream is independent of the digest's internals.
* Telegram transport calls (`delete_message`, `send_message`,
  `get_chat_member`, file download) are embedded as emitted `BotAction` values
  and an environment oracle `Env`; the JSON deserialisation of a downloaded
  archive (`serde_json::from_slice`) is embedded as the `parsed` field of a
  `Document`, holding the parse outcome of the archive bytes.
* Rust `&mut self` methods returning `eyre::Result<T>` become functions
  `Robot9000 → ... → Robot9000 × Except StoreErr T`: the state component is
  meaningful even on the error path (mutations made before the failure
  persist, as they do through `&mut self`).
* String texts are compared and trimmed as in the source; `str::trim` is
  embedded as `trimStr` over the character list (`Char.isWhitespace`
  standing for Rust's whitespace predicate), and the UTF-8 byte view fed to
  the hasher is embedded by `strBytes` (agrees with UTF-8 on ASCII and is
  injective, which is all the development uses).
-/

/-- Error surfaced by the persistent store (`sled::Error`, propagated through
`eyre::Result` by the `?` operators of the source). -/
inductive StoreErr where
  | ioError
deriving DecidableEq

/-- A stored value: the byte string held under a fingerprint key
(`sled::IVec`).  The source writes only `[]` (Seen) and `[1]` (Allowed). -/
abbrev Entry := List Nat

/-- The persistent store (`sled::Db`): an association list from fingerprint
keys (128-bit, embedded as `Nat`) to byte values, plus the environmental
oracle `fail` telling on which keys an operation hits an I/O error. -/
structure Db where
  map : List (Nat × Entry)
  fail : Nat → Bool

/-- Lookup of a key in the store (`sled` read side of `compare_and_swap` /
`insert`). -/
def dbGet (m : List (Nat × Entry)) (k : Nat) : Option Entry :=
  m.lookup k

/-- Unconditional write of a key (`sled::Db::insert`); the newest binding
shadows older ones. -/
def dbInsert (m : List (Nat × Entry)) (k : Nat) (v : Entry) : List (Nat × Entry) :=
  (k, v) :: m

/-- The configuration fields consumed by the embedded core (`Config`,
lines 33-41; `token` and `db_path` only feed the excluded transport and
store-opening plumbing). -/
structure Config where
  max_import_size : Nat
  allow_duplicates_in_replies : Bool

/-- The bot state (`struct Robot9000`, lines 95-100): the store, the pure
digest standing for the reset-per-call `Xxh3` hasher, and the config. -/
structure Robot9000 where
  db : Db
  digest : List Nat → Nat
  config : Config

/-- Little-endian bytes of an `i64` (`i64::to_le_bytes`): eight bytes of the
two's-complement value. -/
def i64ToLeBytes (x : Int) : List Nat :=
  let n := (x % (2 ^ 64)).toNat
  (List.range 8).map fun i => n / 256 ^ i % 256

/-- Byte view of a string as fed to the hasher (`text.as_ref() : &[u8]`).
Agrees with UTF-8 on ASCII and is injective. -/
def strBytes (s : String) : List Nat :=
  s.data.map Char.toNat

/-- `Robot9000::hash_message` (lines 103-108): reset the hasher, feed the
little-endian chat id bytes, then the text bytes, and take the 128-bit
digest. -/
def hash_message (r : Robot9000) (chat_id : Int) (text : String) : Nat :=
  r.digest (i64ToLeBytes chat_id ++ strBytes text)

/-- `Robot9000::store_message` (lines 110-119): compare-and-swap the
fingerprint from absent to the empty (Seen) value.  If the CAS succeeds
(key was absent) the `_` arm yields `false`; if it fails with a current
value, the result is whether that current value is empty. -/
def store_message (r : Robot9000) (chat_id : Int) (text : String) :
    Robot9000 × Except StoreErr Bool :=
  let hash := hash_message r chat_id text
  if r.db.fail hash then (r, .error .ioError)
  else
    match dbGet r.db.map hash with
    | none => ({ r with db := { r.db with map := dbInsert r.db.map hash [] } }, .ok false)
    | some current => (r, .ok (current.length == 0))

/-- `Robot9000::allow_message` (lines 121-125): unconditionally insert the
value `[1]` under the fingerprint. -/
def allow_message (r : Robot9000) (chat_id : Int) (text : String) :
    Robot9000 × Except StoreErr Unit :=
  let hash := hash_message r chat_id text
  if r.db.fail hash then (r, .error .ioError)
  else ({ r with db := { r.db with map := dbInsert r.db.map hash [1] } }, .ok ())

/-- `Robot9000::forbid_message` (lines 127-131): unconditionally insert the
empty value under the fingerprint. -/
def forbid_message (r : Robot9000) (chat_id : Int) (text : String) :
    Robot9000 × Except StoreErr Unit :=
  let hash := hash_message r chat_id text
  if r.db.fail hash then (r, .error .ioError)
  else ({ r with db := { r.db with map := dbInsert r.db.map hash [] } }, .ok ())

/-- A chat member (`teloxide::types::User`); only the id is consumed. -/
structure User where
  id : Int

/-- The environment of transport lookups: `get_chat_member(chat, user)
.can_delete_messages()` as a total oracle. -/
structure Env where
  canDelete : Int → Int → Bool

/-- The media kind of a replied-to message, as inspected by
`reply_command`: either plain text or anything else. -/
inductive ReplyMedia where
  | text (t : String)
  | nonText

/-- A replied-to message (`reply_to_message`): its id and its media kind. -/
structure ReplyTo where
  msgId : Int
  media : ReplyMedia

/-- An import text chunk (`enum ImportTextChunk`, lines 47-55): a bare
string or an annotated `{ text: ... }` object. -/
inductive ImportTextChunk where
  | simple (text : String)
  | typed (text : String)

/-- `ImportTextChunk::as_str` (lines 57-63). -/
def ImportTextChunk.as_str : ImportTextChunk → String
  | .simple text => text
  | .typed text => text

/-- An import text (`enum ImportText`, lines 65-70): plain or chunked. -/
inductive ImportText where
  | simple (text : String)
  | chunked (chunks : List ImportTextChunk)

/-- `ImportText::moo` (lines 72-79): a plain text stands for itself; chunks
are concatenated in order. -/
def ImportText.moo : ImportText → String
  | .simple cow => cow
  | .chunked chunks => String.join (chunks.map ImportTextChunk.as_str)

/-- An import record (`struct ImportMessage`, lines 81-87). -/
structure ImportMessage where
  type : String
  text : ImportText

/-- An import archive (`struct Import`, lines 89-93). -/
structure Import where
  messages : List ImportMessage

/-- A document attachment: the declared file size and the outcome of
parsing the downloaded bytes as an `Import` archive (download plus
`serde_json::from_slice`, lines 189-192, abstracted to their result). -/
structure Document where
  fileSize : Nat
  parsed : Except String Import

/-- The media kind of an inbound message as matched by `process_message`. -/
inductive Media where
  | text (t : String)
  | document (d : Document) (caption : Option String)
  | other

/-- An inbound message event: the fields of `teloxide::types::Message`
consumed by the core (`MessageKind::Common` with an optional sender,
optional reply target and a media kind). -/
structure Msg where
  chatId : Int
  chatIsPrivate : Bool
  msgId : Int
  sender : Option User
  replyTo : Option ReplyTo
  media : Media

/-- A transport side effect requested by the core. -/
inductive BotAction where
  | deleteMessage (chatId msgId : Int)
  | sendReply (chatId replyToMsgId : Int) (text : String)
deriving DecidableEq

/-- Rust `str::trim`: drop leading and trailing whitespace characters. -/
def trimStr (s : String) : String :=
  ⟨((s.data.dropWhile Char.isWhitespace).reverse.dropWhile Char.isWhitespace).reverse⟩

/-- `Robot9000::is_admin` (lines 133-140): a private chat always
authorizes; otherwise ask the transport for the delete capability. -/
def is_admin (env : Env) (chatId : Int) (chatIsPrivate : Bool) (user : User) : Bool :=
  chatIsPrivate || env.canDelete chatId user.id

/-- The rejection reply of `ensure_admin` (line 153). -/
def niceTryText : String := "Nice try"

/-- The reply of a succeeded `/import` (lines 210-212). -/
def importedReplyText (n : Nat) : String :=
  "Sucessfully imported " ++ toString n ++ " messages (excluding duplicates)"

/-- The reply of an oversized `/import` (lines 177-181); the binary-prefix
size formatting is abstracted to the raw numbers. -/
def sizeReplyText (fileSize maxSize : Nat) : String :=
  "Come on, no way to import a " ++ toString fileSize ++ "B file (limit " ++ toString maxSize ++ "B)"

/-- The reply of a failed archive parse (line 224). -/
def parseFailText (err : String) : String :=
  "Failed to parse your import, sorry :(" ++ err

/-- `Robot9000::ensure_admin` (lines 142-161): if the acting user is not an
admin, log and answer with the rejection reply without running the guarded
computation; otherwise run it. -/
def ensure_admin (env : Env) (msg : Msg) (user : User) (r : Robot9000)
    (f : Robot9000 → Robot9000 × Except StoreErr (List BotAction)) :
    Robot9000 × Except StoreErr (List BotAction) :=
  if !is_admin env msg.chatId msg.chatIsPrivate user then
    (r, .ok [.sendReply msg.chatId msg.msgId niceTryText])
  else f r

/-- The per-record fold of `Robot9000::import_document` (lines 194-203):
records typed `"message"` are stored under the fingerprint of their
reconstructed text and contribute `usize::from(!b)` to the count; the
`sum::<Result<_, _>>()` short-circuits on the first store failure (the
state already mutated by earlier records persists through `&mut self`). -/
def import_loop (r : Robot9000) (chat_id : Int) :
    List ImportMessage → Robot9000 × Except StoreErr Nat
  | [] => (r, .ok 0)
  | m :: rest =>
    if m.type == "message" then
      match store_message r chat_id m.text.moo with
      | (r1, .error e) => (r1, .error e)
      | (r1, .ok b) =>
        match import_loop r1 chat_id rest with
        | (r2, .error e) => (r2, .error e)
        | (r2, .ok n) => (r2, .ok ((if b then 0 else 1) + n))
    else import_loop r chat_id rest

/-- `Robot9000::import_document` (lines 163-233): reject oversized
archives with a size reply, answer a parse failure with the error reply,
and otherwise run the per-record fold and report the count. -/
def import_document (r : Robot9000) (_user : User) (msg : Msg) (document : Document) :
    Robot9000 × Except StoreErr (List BotAction) :=
  if document.fileSize > r.config.max_import_size then
    (r, .ok [.sendReply msg.chatId msg.msgId (sizeReplyText document.fileSize r.config.max_import_size)])
  else
    match document.parsed with
    | .ok imp =>
      match import_loop r msg.chatId imp.messages with
      | (r1, .error e) => (r1, .error e)
      | (r1, .ok n) => (r1, .ok [.sendReply msg.chatId msg.msgId (importedReplyText n)])
    | .error err => (r, .ok [.sendReply msg.chatId msg.msgId (parseFailText err)])

/-- `Robot9000::reply_command` (lines 235-270): a reply to a non-text
message is not a command (`Ok(false)`); otherwise a trimmed `/allow` or
`/forbid` runs the override under `ensure_admin` on the replied-to text and
yields `Ok(true)`; anything else yields `Ok(false)`. -/
def reply_command (env : Env) (r : Robot9000) (msg : Msg) (reply_to : ReplyTo)
    (user : User) (text : String) : Robot9000 × Except StoreErr (Bool × List BotAction) :=
  match reply_to.media with
  | .nonText => (r, .ok (false, []))
  | .text reply_to_text =>
    if trimStr text = "/allow" then
      let p := ensure_admin env msg user r fun r1 =>
        let q := allow_message r1 msg.chatId reply_to_text
        (q.1, q.2.map fun _ => [])
      (p.1, p.2.map fun acts => (true, acts))
    else if trimStr text = "/forbid" then
      let p := ensure_admin env msg user r fun r1 =>
        let q := forbid_message r1 msg.chatId reply_to_text
        (q.1, q.2.map fun _ => [])
      (p.1, p.2.map fun acts => (true, acts))
    else (r, .ok (false, []))

/-- The dedup tail of `Robot9000::process_message` (lines 296-309): store
the message text; a `true` result is a duplicate and requests deletion of
the message, a `false` result leaves it standing. -/
def dedup_step (r : Robot9000) (msg : Msg) (text : String) :
    Robot9000 × Except StoreErr (List BotAction) :=
  match store_message r msg.chatId text with
  | (r1, .error e) => (r1, .error e)
  | (r1, .ok b) => (r1, .ok (if b then [.deleteMessage msg.chatId msg.msgId] else []))

/-- `Robot9000::process_message` (lines 272-331): a message without a
sender is ignored; a text message first tries `reply_command` when it is a
reply (stopping if handled, or if duplicates are allowed in replies), then
falls through to the dedup step; a document with a trimmed `/import`
caption runs the import under `ensure_admin`; other media are ignored. -/
def process_message (env : Env) (r : Robot9000) (msg : Msg) :
    Robot9000 × Except StoreErr (List BotAction) :=
  match msg.sender with
  | none => (r, .ok [])
  | some user =>
    match msg.media with
    | .text tx =>
      match msg.replyTo with
      | some reply_to =>
        match reply_command env r msg reply_to user tx with
        | (r1, .error e) => (r1, .error e)
        | (r1, .ok (true, acts)) => (r1, .ok acts)
        | (r1, .ok (false, acts)) =>
          if r1.config.allow_duplicates_in_replies then (r1, .ok acts)
          else
            let p := dedup_step r1 msg tx
            (p.1, p.2.map fun acts2 => acts ++ acts2)
      | none => dedup_step r msg tx
    | .document d (some caption) =>
      if trimStr caption = "/import" then
        ensure_admin env msg user r fun r1 => import_document r1 user msg d
      else (r, .ok [])
    | .document _ none => (r, .ok [])
    | .other => (r, .ok [])

/-- The fingerprints of the `"message"`-typed records of an archive, in
order, with multiplicity. -/
def messageFps (r : Robot9000) (chat_id : Int) (msgs : List ImportMessage) : List Nat :=
  (msgs.filter fun m => m.type == "message").map fun m => hash_message r chat_id m.text.moo

/-- The number of distinct fingerprints among `fps` that are absent from
the store. -/
def countFpsA (mp : List (Nat × Entry)) (fps : List Nat) : Nat :=
  (fps.toFinset.filter fun fp => dbGet mp fp = none).card

/-- The number of occurrences (with multiplicity) of fingerprints holding
a non-empty (Allowed) value in the store. -/
def countFpsW (mp : List (Nat × Entry)) (fps : List Nat) : Nat :=
  (fps.filter fun fp =>
    match dbGet mp fp with
    | some v => !v.isEmpty
    | none => false).length

/-- Closed-form import count: the number of distinct fingerprints of
message records that are absent from the store, plus the number of message
records (with multiplicity) whose fingerprint holds a non-empty (Allowed)
value. -/
def countSpec (r : Robot9000) (chat_id : Int) (msgs : List ImportMessage) : Nat :=
  countFpsA r.db.map (messageFps r chat_id msgs)
    + countFpsW r.db.map (messageFps r chat_id msgs)

/-- Whether an action deletes a message. -/
def BotAction.isDelete : BotAction → Bool
  | .deleteMessage _ _ => true
  | .sendReply _ _ _ => false

/-- A concrete digest used to evaluate the development on closed inputs
(any function works; the theorems never depend on its internals). -/
def sampleDigest : List Nat → Nat :=
  fun l => l.foldl (fun a b => a * 256 + b) 1

/-- A concrete configuration with the source defaults (50 MiB, duplicates
in replies not allowed). -/
def sampleConfig : Config :=
  { max_import_size := 52428800, allow_duplicates_in_replies := false }

/-- A concrete bot over an empty, never-failing store. -/
def sampleBot : Robot9000 :=
  { db := { map := [], fail := fun _ => false }, digest := sampleDigest, config := sampleConfig }

/-- A concrete environment where nobody holds the delete capability. -/
def sampleEnv : Env := { canDelete := fun _ _ => false }

/-- A concrete bot whose store already holds the fingerprint of
`(chat 0, "x")` in the Allowed state. -/
def sampleBotAllowedX : Robot9000 :=
  { sampleBot with db := { map := [(hash_message sampleBot 0 "x", [1])], fail := fun _ => false } }

/-- A concrete bot whose store already holds the fingerprint of
`(chat 0, "/allow")` in the Seen state, with the replies-exempt-from-dedup
option enabled. -/
def sampleBotRepliesExempt : Robot9000 :=
  { db := { map := [(hash_message sampleBot 0 "/allow", [])], fail := fun _ => false },
    digest := sampleDigest,
    config := { max_import_size := 52428800, allow_duplicates_in_replies := true } }

/-- A concrete bot whose store fails exactly on the fingerprint of
`(chat 0, "b")`. -/
def sampleBotFailB : Robot9000 :=
  { db := { map := [], fail := fun k => k == hash_message sampleBot 0 "b" },
    digest := sampleDigest, config := sampleConfig }

/-- A store mutation: one of the three mutating entry points of the store
engine, each taking a (channel, text) pair. -/
inductive StoreOp where
  | store (chat_id : Int) (text : String)
  | allow (chat_id : Int) (text : String)
  | forbid (chat_id : Int) (text : String)

/-- Run one store operation, keeping the state (the value handed back to
the caller is dropped; on a store failure the state is unchanged). -/
def applyOp (r : Robot9000) : StoreOp → Robot9000
  | .store c t => (store_message r c t).1
  | .allow c t => (allow_message r c t).1
  | .forbid c t => (forbid_message r c t).1

/-- Run a sequence of store operations in order. -/
def runOps (r : Robot9000) (ops : List StoreOp) : Robot9000 :=
  ops.foldl applyOp r

/-- Whether an operation is an override (allow or forbid) targeting the
fingerprint `fp`, fingerprinting with the digest of `r`. -/
def isOverrideOn (r : Robot9000) (fp : Nat) : StoreOp → Bool
  | .store _ _ => false
  | .allow c t => hash_message r c t == fp
  | .forbid c t => hash_message r c t == fp

/-! ### Basic store lemmas -/

theorem dbGet_dbInsert_self (m : List (Nat × Entry)) (k : Nat) (v : Entry) :
    dbGet (dbInsert m k v) k = some v := by
  simp [dbGet, dbInsert, List.lookup]

theorem dbGet_dbInsert_ne (m : List (Nat × Entry)) (k k' : Nat) (v : Entry) (h : k' ≠ k) :
    dbGet (dbInsert m k v) k' = dbGet m k' := by
  have hb : (k' == k) = false := by simp [h]
  simp [dbGet, dbInsert, List.lookup, hb]

theorem hash_message_congr (r r' : Robot9000) (h : r'.digest = r.digest) (c : Int) (t : String) :
    hash_message r' c t = hash_message r c t := by
  unfold hash_message
  rw [h]

theorem store_message_absent (r : Robot9000) (c : Int) (t : String)
    (hf : r.db.fail (hash_message r c t) = false)
    (ha : dbGet r.db.map (hash_message r c t) = none) :
    store_message r c t =
      ({ r with db := { r.db with map := dbInsert r.db.map (hash_message r c t) [] } },
        .ok false) := by
  simp [store_message, hf, ha]

theorem store_message_present (r : Robot9000) (c : Int) (t : String) (v : Entry)
    (hf : r.db.fail (hash_message r c t) = false)
    (hp : dbGet r.db.map (hash_message r c t) = some v) :
    store_message r c t = (r, .ok (v.length == 0)) := by
  simp [store_message, hf, hp]

theorem store_message_digest (r : Robot9000) (c : Int) (t : String) :
    ((store_message r c t).1).digest = r.digest := by
  cases hf : r.db.fail (hash_message r c t)
  · cases hg : dbGet r.db.map (hash_message r c t) <;> simp [store_message, hf, hg]
  · simp [store_message, hf]

theorem store_message_fail_oracle (r : Robot9000) (c : Int) (t : String) :
    ((store_message r c t).1).db.fail = r.db.fail := by
  cases hf : r.db.fail (hash_message r c t)
  · cases hg : dbGet r.db.map (hash_message r c t) <;> simp [store_message, hf, hg]
  · simp [store_message, hf]

theorem store_message_config (r : Robot9000) (c : Int) (t : String) :
    ((store_message r c t).1).config = r.config := by
  cases hf : r.db.fail (hash_message r c t)
  · cases hg : dbGet r.db.map (hash_message r c t) <;> simp [store_message, hf, hg]
  · simp [store_message, hf]

theorem store_message_preserves (r : Robot9000) (c : Int) (t : String) (fp : Nat) (v : Entry)
    (h : dbGet r.db.map fp = some v) :
    dbGet ((store_message r c t).1).db.map fp = some v := by
  cases hf : r.db.fail (hash_message r c t)
  · cases hg : dbGet r.db.map (hash_message r c t) with
    | none =>
      have hne : fp ≠ hash_message r c t := by
        intro he
        rw [he, hg] at h
        exact Option.noConfusion h
      simp [store_message, hf, hg, dbGet_dbInsert_ne _ _ _ _ hne, h]
    | some w => simp [store_message, hf, hg, h]
  · simp [store_message, hf, h]

theorem allow_message_eq (r : Robot9000) (c : Int) (t : String)
    (hf : r.db.fail (hash_message r c t) = false) :
    allow_message r c t =
      ({ r with db := { r.db with map := dbInsert r.db.map (hash_message r c t) [1] } },
        .ok ()) := by
  simp [allow_message, hf]

theorem forbid_message_eq (r : Robot9000) (c : Int) (t : String)
    (hf : r.db.fail (hash_message r c t) = false) :
    forbid_message r c t =
      ({ r with db := { r.db with map := dbInsert r.db.map (hash_message r c t) [] } },
        .ok ()) := by
  simp [forbid_message, hf]

/-! ### C1: the record-if-new flag of store_message -/

/-- C1 counterexample: on an absent entry (`sampleBot` has an empty store),
`store_message` returns `Ok(false)`, not "was new" = `true` as the claim
states; the code's Boolean is the duplicate-to-delete flag, inverted with
respect to the claim for the absent and Seen cases. -/
theorem C1_counterexample :
    dbGet sampleBot.db.map (hash_message sampleBot 0 "a") = none
      ∧ (store_message sampleBot 0 "a").2 = Except.ok false
      ∧ (store_message sampleBot 0 "a").2 ≠ Except.ok true := by
  refine ⟨rfl, rfl, ?_⟩
  intro h
  rw [show (store_message sampleBot 0 "a").2 = Except.ok false from rfl] at h
  exact absurd (Except.ok.inj h) (by decide)

/-- After a first sight recorded the entry, an immediate second call on the
same pair reports the Seen duplicate. -/
theorem store_message_after_record (r : Robot9000) (c : Int) (t : String)
    (hf : r.db.fail (hash_message r c t) = false)
    (ha : dbGet r.db.map (hash_message r c t) = none) :
    (store_message ((store_message r c t).1) c t).2 = .ok true := by
  have hd := store_message_digest r c t
  have hhash := hash_message_congr r ((store_message r c t).1) hd c t
  have hf1 : ((store_message r c t).1).db.fail (hash_message ((store_message r c t).1) c t)
      = false := by
    rw [store_message_fail_oracle, hhash]
    exact hf
  have hp1 : dbGet ((store_message r c t).1).db.map (hash_message ((store_message r c t).1) c t)
      = some [] := by
    rw [hhash, store_message_absent r c t hf ha]
    exact dbGet_dbInsert_self _ _ _
  rw [store_message_present _ c t [] hf1 hp1]
  rfl

/-- C1 (amended): for every channel id and text, `store_message` on the
fingerprint of (channel, text): if the entry is absent, it sets the entry
to the Seen empty-payload marker and returns `false`; if the entry is
present it leaves the state unchanged and returns whether the present
value is the empty (Seen) marker — `true` for Seen, `false` for Allowed.
Equivalently, the first call for a given (channel, text) pair returns
`false` and every subsequent call with the same pair returns `true`
(unless an allow override intervened). -/
theorem C1_record_if_new (r : Robot9000) (chat_id : Int) (text : String)
    (hf : r.db.fail (hash_message r chat_id text) = false) :
    (dbGet r.db.map (hash_message r chat_id text) = none →
        (store_message r chat_id text).2 = .ok false
          ∧ dbGet ((store_message r chat_id text).1).db.map (hash_message r chat_id text)
              = some []
          ∧ (store_message ((store_message r chat_id text).1) chat_id text).2 = .ok true)
      ∧ (∀ v, dbGet r.db.map (hash_message r chat_id text) = some v →
          store_message r chat_id text = (r, .ok (v.length == 0))) := by
  constructor
  · intro ha
    have h1 := store_message_absent r chat_id text hf ha
    refine ⟨by rw [h1], ?_, store_message_after_record r chat_id text hf ha⟩
    rw [h1]
    exact dbGet_dbInsert_self _ _ _
  · intro v hp
    exact store_message_present r chat_id text v hf hp

/-- C1 witness: the amended theorem evaluated at concrete inputs — a fresh
text returns `false` then `true`, and an Allowed entry returns `false`. -/
theorem C1_record_if_new_witness :
    sampleBot.db.fail (hash_message sampleBot 0 "a") = false
      ∧ dbGet sampleBot.db.map (hash_message sampleBot 0 "a") = none
      ∧ (store_message sampleBot 0 "a").2 = Except.ok false
      ∧ (store_message ((store_message sampleBot 0 "a").1) 0 "a").2 = Except.ok true
      ∧ store_message sampleBotAllowedX 0 "x" = (sampleBotAllowedX, .ok false) := by
  refine ⟨rfl, rfl, ?_, ?_, ?_⟩
  · exact ((C1_record_if_new sampleBot 0 "a" rfl).1 rfl).1
  · exact ((C1_record_if_new sampleBot 0 "a" rfl).1 rfl).2.2
  · exact (C1_record_if_new sampleBotAllowedX 0 "x" rfl).2 [1] rfl

/-! ### C3 and C5: the Allowed state and the forbid override on live traffic -/

/-- The dedup tail on a stored non-empty (Allowed) entry: no delete is
requested and the state is unchanged. -/
theorem dedup_step_not_dup (r : Robot9000) (msg : Msg) (t : String) (v : Entry)
    (hf : r.db.fail (hash_message r msg.chatId t) = false)
    (hp : dbGet r.db.map (hash_message r msg.chatId t) = some v)
    (hv : (v.length == 0) = false) :
    dedup_step r msg t = (r, .ok []) := by
  unfold dedup_step
  rw [store_message_present r msg.chatId t v hf hp, hv]
  rfl

/-- The dedup tail on a stored empty (Seen) entry: the message is deleted
and the state is unchanged. -/
theorem dedup_step_dup (r : Robot9000) (msg : Msg) (t : String)
    (hf : r.db.fail (hash_message r msg.chatId t) = false)
    (hp : dbGet r.db.map (hash_message r msg.chatId t) = some []) :
    dedup_step r msg t = (r, .ok [.deleteMessage msg.chatId msg.msgId]) := by
  unfold dedup_step
  rw [store_message_present r msg.chatId t [] hf hp]
  rfl

/-- C3: with the entry of (channel, text) in the Allowed state (`[1]`),
processing an ordinary live text message with that content in that channel
issues no delete and leaves the whole state (hence the entry) unchanged;
`store_message` on any pair never downgrades the Allowed entry, and the
explicit forbid override does transition it back to the Seen marker. -/
theorem C3_allowed_never_deleted (env : Env) (r : Robot9000) (c : Int) (priv : Bool)
    (i : Int) (u : User) (t : String)
    (hp : dbGet r.db.map (hash_message r c t) = some [1])
    (hf : r.db.fail (hash_message r c t) = false) :
    process_message env r ⟨c, priv, i, some u, none, .text t⟩ = (r, .ok [])
      ∧ (∀ c' t', dbGet ((store_message r c' t').1).db.map (hash_message r c t) = some [1])
      ∧ dbGet ((forbid_message r c t).1).db.map (hash_message r c t) = some [] := by
  refine ⟨?_, ?_, ?_⟩
  · exact dedup_step_not_dup r ⟨c, priv, i, some u, none, .text t⟩ t [1] hf hp rfl
  · intro c' t'
    exact store_message_preserves r c' t' _ [1] hp
  · rw [forbid_message_eq r c t hf]
    exact dbGet_dbInsert_self _ _ _

/-- C3 witness: the theorem evaluated on a concrete Allowed entry. -/
theorem C3_allowed_never_deleted_witness :
    dbGet sampleBotAllowedX.db.map (hash_message sampleBotAllowedX 0 "x") = some [1]
      ∧ sampleBotAllowedX.db.fail (hash_message sampleBotAllowedX 0 "x") = false
      ∧ process_message sampleEnv sampleBotAllowedX ⟨0, false, 7, some ⟨1⟩, none, .text "x"⟩
          = (sampleBotAllowedX, .ok [])
      ∧ dbGet ((store_message sampleBotAllowedX 5 "other").1).db.map
          (hash_message sampleBotAllowedX 0 "x") = some [1]
      ∧ dbGet ((forbid_message sampleBotAllowedX 0 "x").1).db.map
          (hash_message sampleBotAllowedX 0 "x") = some [] := by
  have h := C3_allowed_never_deleted sampleEnv sampleBotAllowedX 0 false 7 ⟨1⟩ "x" rfl rfl
  exact ⟨rfl, rfl, h.1, h.2.1 5 "other", h.2.2⟩

/-- C5: on a never-recorded (channel, text), the forbid override succeeds
and marks the entry Seen, and the first subsequent ordinary live message
with exactly that text in that channel is deleted. -/
theorem C5_forbid_then_delete (env : Env) (r : Robot9000) (c : Int) (priv : Bool)
    (i : Int) (u : User) (t : String)
    (_habs : dbGet r.db.map (hash_message r c t) = none)
    (hf : r.db.fail (hash_message r c t) = false) :
    (forbid_message r c t).2 = .ok ()
      ∧ process_message env ((forbid_message r c t).1) ⟨c, priv, i, some u, none, .text t⟩
          = ((forbid_message r c t).1, .ok [.deleteMessage c i]) := by
  have h1 := forbid_message_eq r c t hf
  have hd : ((forbid_message r c t).1).digest = r.digest := by rw [h1]
  have hhash := hash_message_congr r ((forbid_message r c t).1) hd c t
  have hf1 : ((forbid_message r c t).1).db.fail
      (hash_message ((forbid_message r c t).1) c t) = false := by
    rw [hhash, h1]
    exact hf
  have hp1 : dbGet ((forbid_message r c t).1).db.map
      (hash_message ((forbid_message r c t).1) c t) = some [] := by
    rw [hhash, h1]
    exact dbGet_dbInsert_self _ _ _
  exact ⟨by rw [h1], dedup_step_dup ((forbid_message r c t).1)
    ⟨c, priv, i, some u, none, .text t⟩ t hf1 hp1⟩

/-- C5 witness: the theorem evaluated on a concrete fresh text. -/
theorem C5_forbid_then_delete_witness :
    dbGet sampleBot.db.map (hash_message sampleBot 0 "a") = none
      ∧ sampleBot.db.fail (hash_message sampleBot 0 "a") = false
      ∧ (forbid_message sampleBot 0 "a").2 = .ok ()
      ∧ process_message sampleEnv ((forbid_message sampleBot 0 "a").1)
          ⟨0, false, 7, some ⟨1⟩, none, .text "a"⟩
          = ((forbid_message sampleBot 0 "a").1, .ok [.deleteMessage 0 7]) := by
  have h := C5_forbid_then_delete sampleEnv sampleBot 0 false 7 ⟨1⟩ "a" rfl rfl
  exact ⟨rfl, rfl, h.1, h.2⟩

/-! ### C7: the authorization gate on reply overrides -/

/-- C7: a user without the delete capability in a non-private channel
attempting a trimmed `/allow` or `/forbid` reply-override: the override is
not applied — the state is returned unchanged, so a later identical live
message behaves exactly as if the attempt never happened — and only the
rejection reply is sent; in a private channel the same attempt is always
authorized and the override is applied to the replied-to text. -/
theorem C7_admin_gate (env : Env) (r : Robot9000) (c i ri : Int) (u : User)
    (s tx : String)
    (hcmd : trimStr tx = "/allow" ∨ trimStr tx = "/forbid") :
    (env.canDelete c u.id = false →
        process_message env r ⟨c, false, i, some u, some ⟨ri, .text s⟩, .text tx⟩
          = (r, .ok [.sendReply c i niceTryText]))
      ∧ is_admin env c true u = true
      ∧ (r.db.fail (hash_message r c s) = false →
          process_message env r ⟨c, true, i, some u, some ⟨ri, .text s⟩, .text tx⟩
            = ((if trimStr tx = "/allow" then allow_message r c s
                else forbid_message r c s).1, .ok [])) := by
  refine ⟨?_, rfl, ?_⟩
  · intro hcan
    rcases hcmd with htx | htx
    · simp [process_message, reply_command, ensure_admin, is_admin, Except.map, htx, hcan]
    · have hne : ¬trimStr tx = "/allow" := by rw [htx]; decide
      simp [process_message, reply_command, ensure_admin, is_admin, Except.map, htx, hne,
        hcan]
  · intro hf
    rcases hcmd with htx | htx
    · simp [process_message, reply_command, ensure_admin, is_admin, allow_message,
        Except.map, htx, hf]
    · have hne : ¬trimStr tx = "/allow" := by rw [htx]; decide
      simp [process_message, reply_command, ensure_admin, is_admin, forbid_message,
        Except.map, htx, hne, hf]

/-- C7 witness: the theorem evaluated with a capability-less user, in a
group chat and in a private chat. -/
theorem C7_admin_gate_witness :
    (trimStr "/allow" = "/allow" ∨ trimStr "/allow" = "/forbid")
      ∧ sampleEnv.canDelete 0 1 = false
      ∧ process_message sampleEnv sampleBot
          ⟨0, false, 7, some ⟨1⟩, some ⟨3, .text "x"⟩, .text "/allow"⟩
          = (sampleBot, .ok [.sendReply 0 7 niceTryText])
      ∧ is_admin sampleEnv 0 true ⟨1⟩ = true
      ∧ sampleBot.db.fail (hash_message sampleBot 0 "x") = false
      ∧ process_message sampleEnv sampleBot
          ⟨0, true, 7, some ⟨1⟩, some ⟨3, .text "x"⟩, .text "/allow"⟩
          = ((if trimStr "/allow" = "/allow" then allow_message sampleBot 0 "x"
              else forbid_message sampleBot 0 "x").1, .ok []) := by
  have h := C7_admin_gate sampleEnv sampleBot 0 7 3 ⟨1⟩ "x" "/allow" (Or.inl rfl)
  exact ⟨Or.inl rfl, rfl, h.1 rfl, h.2.1, rfl, h.2.2 rfl⟩

/-! ### C6: a command-shaped reply to a non-text message -/

set_option maxRecDepth 10000 in
/-- C6 counterexample: with the replies-exempt-from-dedup option enabled,
a reply to a non-text (document) message whose own text is `/allow` is NOT
passed through normal dedup: its text is already Seen in the store, yet
the store is untouched and no delete is issued, whereas the corresponding
ordinary message with the same text is deleted. -/
theorem C6_counterexample :
    sampleBotRepliesExempt.config.allow_duplicates_in_replies = true
      ∧ dbGet sampleBotRepliesExempt.db.map
          (hash_message sampleBotRepliesExempt 0 "/allow") = some []
      ∧ process_message sampleEnv sampleBotRepliesExempt
          ⟨0, false, 7, some ⟨1⟩, some ⟨3, .nonText⟩, .text "/allow"⟩
          = (sampleBotRepliesExempt, .ok [])
      ∧ process_message sampleEnv sampleBotRepliesExempt
          ⟨0, false, 7, some ⟨1⟩, none, .text "/allow"⟩
          = (sampleBotRepliesExempt, .ok [.deleteMessage 0 7]) :=
  ⟨rfl, rfl, rfl, rfl⟩

/-- C6 (amended): when the replies-exempt-from-dedup option is disabled
(the source default), a reply to a non-text message whose own trimmed text
is `/allow` or `/forbid` does not invoke the override and is processed
exactly like the corresponding ordinary (non-reply) message — normal
dedup on its own text, with deletion if duplicate.  (When the option is
enabled, the counterexample shows such a reply is exempted from dedup
entirely.) -/
theorem C6_noncommand_reply_ordinary (env : Env) (r : Robot9000) (c : Int) (priv : Bool)
    (i ri : Int) (u : User) (tx : String)
    (hdup : r.config.allow_duplicates_in_replies = false)
    (_hcmd : trimStr tx = "/allow" ∨ trimStr tx = "/forbid") :
    process_message env r ⟨c, priv, i, some u, some ⟨ri, .nonText⟩, .text tx⟩
      = process_message env r ⟨c, priv, i, some u, none, .text tx⟩ := by
  show (if r.config.allow_duplicates_in_replies then _
    else (let p := dedup_step r ⟨c, priv, i, some u, some ⟨ri, .nonText⟩, .text tx⟩ tx
      (p.1, p.2.map fun acts2 => [] ++ acts2)))
    = dedup_step r ⟨c, priv, i, some u, none, .text tx⟩ tx
  rw [hdup]
  simp only [Bool.false_eq_true, if_false, List.nil_append]
  unfold dedup_step
  cases hs : store_message r c tx with
  | mk r1 res => cases res <;> rfl

/-- C6 witness: the amended theorem evaluated on a concrete reply under
the default configuration. -/
theorem C6_noncommand_reply_ordinary_witness :
    sampleBot.config.allow_duplicates_in_replies = false
      ∧ (trimStr "/allow" = "/allow" ∨ trimStr "/allow" = "/forbid")
      ∧ process_message sampleEnv sampleBot
          ⟨0, false, 7, some ⟨1⟩, some ⟨3, .nonText⟩, .text "/allow"⟩
          = process_message sampleEnv sampleBot ⟨0, false, 7, some ⟨1⟩, none, .text "/allow"⟩ :=
  ⟨rfl, Or.inl rfl,
    C6_noncommand_reply_ordinary sampleEnv sampleBot 0 false 7 3 ⟨1⟩ "/allow" rfl (Or.inl rfl)⟩

/-! ### C10: the override algebra of the store -/

theorem allow_message_digest (r : Robot9000) (c : Int) (t : String) :
    ((allow_message r c t).1).digest = r.digest := by
  cases hf : r.db.fail (hash_message r c t) <;> simp [allow_message, hf]

theorem allow_message_fail_oracle (r : Robot9000) (c : Int) (t : String) :
    ((allow_message r c t).1).db.fail = r.db.fail := by
  cases hf : r.db.fail (hash_message r c t) <;> simp [allow_message, hf]

theorem forbid_message_digest (r : Robot9000) (c : Int) (t : String) :
    ((forbid_message r c t).1).digest = r.digest := by
  cases hf : r.db.fail (hash_message r c t) <;> simp [forbid_message, hf]

theorem forbid_message_fail_oracle (r : Robot9000) (c : Int) (t : String) :
    ((forbid_message r c t).1).db.fail = r.db.fail := by
  cases hf : r.db.fail (hash_message r c t) <;> simp [forbid_message, hf]

theorem allow_message_preserves_ne (r : Robot9000) (c' : Int) (t' : String) (fp : Nat)
    (hne : fp ≠ hash_message r c' t') :
    dbGet ((allow_message r c' t').1).db.map fp = dbGet r.db.map fp := by
  cases hfo : r.db.fail (hash_message r c' t')
  · simp [allow_message, hfo, dbGet_dbInsert_ne _ _ _ _ hne]
  · simp [allow_message, hfo]

theorem forbid_message_preserves_ne (r : Robot9000) (c' : Int) (t' : String) (fp : Nat)
    (hne : fp ≠ hash_message r c' t') :
    dbGet ((forbid_message r c' t').1).db.map fp = dbGet r.db.map fp := by
  cases hfo : r.db.fail (hash_message r c' t')
  · simp [forbid_message, hfo, dbGet_dbInsert_ne _ _ _ _ hne]
  · simp [forbid_message, hfo]

theorem applyOp_digest (r : Robot9000) (op : StoreOp) : (applyOp r op).digest = r.digest := by
  cases op with
  | store c t => exact store_message_digest r c t
  | allow c t => exact allow_message_digest r c t
  | forbid c t => exact forbid_message_digest r c t

theorem applyOp_fail_oracle (r : Robot9000) (op : StoreOp) :
    (applyOp r op).db.fail = r.db.fail := by
  cases op with
  | store c t => exact store_message_fail_oracle r c t
  | allow c t => exact allow_message_fail_oracle r c t
  | forbid c t => exact forbid_message_fail_oracle r c t

theorem runOps_digest (ops : List StoreOp) :
    ∀ r : Robot9000, (runOps r ops).digest = r.digest := by
  induction ops with
  | nil => intro r; rfl
  | cons op rest ih =>
    intro r
    have hstep : runOps r (op :: rest) = runOps (applyOp r op) rest := rfl
    rw [hstep, ih (applyOp r op), applyOp_digest]

theorem runOps_fail_oracle (ops : List StoreOp) :
    ∀ r : Robot9000, (runOps r ops).db.fail = r.db.fail := by
  induction ops with
  | nil => intro r; rfl
  | cons op rest ih =>
    intro r
    have hstep : runOps r (op :: rest) = runOps (applyOp r op) rest := rfl
    rw [hstep, ih (applyOp r op), applyOp_fail_oracle]

/-- Running operations none of which is an override on `fp` preserves a
present entry at `fp` (store operations never touch present entries,
overrides on other fingerprints do not reach `fp`). -/
theorem runOps_preserves_nonoverride (rbase : Robot9000) (fp : Nat) (w : Entry)
    (ops : List StoreOp) :
    ∀ r : Robot9000, r.digest = rbase.digest →
      (∀ op ∈ ops, isOverrideOn rbase fp op = false) →
      dbGet r.db.map fp = some w → dbGet (runOps r ops).db.map fp = some w := by
  induction ops with
  | nil => intro r _ _ hget; exact hget
  | cons op rest ih =>
    intro r hdig hops hget
    have hstep : runOps r (op :: rest) = runOps (applyOp r op) rest := rfl
    rw [hstep]
    have h1 : dbGet (applyOp r op).db.map fp = some w := by
      cases op with
      | store c' t' => exact store_message_preserves r c' t' fp w hget
      | allow c' t' =>
        have hcongr := hash_message_congr rbase r hdig c' t'
        have h2 := hops (StoreOp.allow c' t') (List.mem_cons_self _ _)
        simp only [isOverrideOn] at h2
        have hne : fp ≠ hash_message r c' t' := by
          intro he
          rw [hcongr] at he
          rw [← he] at h2
          simp at h2
        rw [show applyOp r (StoreOp.allow c' t') = (allow_message r c' t').1 from rfl,
          allow_message_preserves_ne r c' t' fp hne]
        exact hget
      | forbid c' t' =>
        have hcongr := hash_message_congr rbase r hdig c' t'
        have h2 := hops (StoreOp.forbid c' t') (List.mem_cons_self _ _)
        simp only [isOverrideOn] at h2
        have hne : fp ≠ hash_message r c' t' := by
          intro he
          rw [hcongr] at he
          rw [← he] at h2
          simp at h2
        rw [show applyOp r (StoreOp.forbid c' t') = (forbid_message r c' t').1 from rfl,
          forbid_message_preserves_ne r c' t' fp hne]
        exact hget
    refine ih (applyOp r op) ?_ ?_ h1
    · rw [applyOp_digest]
      exact hdig
    · intro op' hmem
      exact hops op' (List.mem_cons_of_mem _ hmem)

/-- C10: the overrides are last-write-wins on a fingerprint: after any
operation sequence whose last override on the fingerprint of
(channel, text) is an allow (resp. forbid), the entry holds `[1]` (resp.
`[]`), whatever store_message calls and overrides of other fingerprints
surround it; and store_message never changes any present entry. -/
theorem C10_override_last_write_wins (r : Robot9000) (c : Int) (t : String)
    (pre post : List StoreOp)
    (hf : r.db.fail (hash_message r c t) = false)
    (hpost : ∀ op ∈ post, isOverrideOn r (hash_message r c t) op = false) :
    dbGet (runOps r (pre ++ StoreOp.allow c t :: post)).db.map (hash_message r c t)
        = some [1]
      ∧ dbGet (runOps r (pre ++ StoreOp.forbid c t :: post)).db.map (hash_message r c t)
          = some []
      ∧ (∀ r' : Robot9000, ∀ c' t' fp v, dbGet r'.db.map fp = some v →
          dbGet ((store_message r' c' t').1).db.map fp = some v) := by
  have hsplit : ∀ x : StoreOp, runOps r (pre ++ x :: post)
      = runOps (applyOp (runOps r pre) x) post := by
    intro x
    rw [runOps, List.foldl_append]
    rfl
  have hd1 : (runOps r pre).digest = r.digest := runOps_digest pre r
  have hfo1 : (runOps r pre).db.fail = r.db.fail := runOps_fail_oracle pre r
  have hhash1 : hash_message (runOps r pre) c t = hash_message r c t :=
    hash_message_congr r (runOps r pre) hd1 c t
  have hfa : (runOps r pre).db.fail (hash_message (runOps r pre) c t) = false := by
    rw [hhash1, hfo1]
    exact hf
  refine ⟨?_, ?_, fun r' c' t' fp v h => store_message_preserves r' c' t' fp v h⟩
  · have hget2 : dbGet (applyOp (runOps r pre) (StoreOp.allow c t)).db.map
        (hash_message r c t) = some [1] := by
      rw [show applyOp (runOps r pre) (StoreOp.allow c t)
          = (allow_message (runOps r pre) c t).1 from rfl,
        allow_message_eq (runOps r pre) c t hfa, ← hhash1]
      exact dbGet_dbInsert_self _ _ _
    rw [hsplit]
    refine runOps_preserves_nonoverride r (hash_message r c t) [1] post _ ?_ hpost hget2
    rw [applyOp_digest]
    exact hd1
  · have hget2 : dbGet (applyOp (runOps r pre) (StoreOp.forbid c t)).db.map
        (hash_message r c t) = some [] := by
      rw [show applyOp (runOps r pre) (StoreOp.forbid c t)
          = (forbid_message (runOps r pre) c t).1 from rfl,
        forbid_message_eq (runOps r pre) c t hfa, ← hhash1]
      exact dbGet_dbInsert_self _ _ _
    rw [hsplit]
    refine runOps_preserves_nonoverride r (hash_message r c t) [] post _ ?_ hpost hget2
    rw [applyOp_digest]
    exact hd1

set_option maxRecDepth 100000 in
/-- C10 witness: a concrete sequence — store, then forbid, then allow,
then further stores and an override of another fingerprint — ends with
the entry Allowed; with the last two overrides swapped it ends Seen. -/
theorem C10_override_last_write_wins_witness :
    sampleBot.db.fail (hash_message sampleBot 0 "x") = false
      ∧ (∀ op ∈ [StoreOp.store 0 "x", StoreOp.store 3 "y", StoreOp.forbid 5 "zz"],
          isOverrideOn sampleBot (hash_message sampleBot 0 "x") op = false)
      ∧ dbGet (runOps sampleBot ([StoreOp.store 0 "x", StoreOp.forbid 0 "x"]
            ++ StoreOp.allow 0 "x"
            :: [StoreOp.store 0 "x", StoreOp.store 3 "y", StoreOp.forbid 5 "zz"])).db.map
          (hash_message sampleBot 0 "x") = some [1]
      ∧ dbGet (runOps sampleBot ([StoreOp.store 0 "x", StoreOp.allow 0 "x"]
            ++ StoreOp.forbid 0 "x"
            :: [StoreOp.store 0 "x", StoreOp.store 3 "y", StoreOp.forbid 5 "zz"])).db.map
          (hash_message sampleBot 0 "x") = some []
      ∧ dbGet ((store_message sampleBotAllowedX 0 "x").1).db.map
          (hash_message sampleBot 0 "x") = some [1] := by
  have hops : ∀ op ∈ [StoreOp.store 0 "x", StoreOp.store 3 "y", StoreOp.forbid 5 "zz"],
      isOverrideOn sampleBot (hash_message sampleBot 0 "x") op = false := by decide
  have h1 := C10_override_last_write_wins sampleBot 0 "x"
    [StoreOp.store 0 "x", StoreOp.forbid 0 "x"]
    [StoreOp.store 0 "x", StoreOp.store 3 "y", StoreOp.forbid 5 "zz"] rfl hops
  have h2 := C10_override_last_write_wins sampleBot 0 "x"
    [StoreOp.store 0 "x", StoreOp.allow 0 "x"]
    [StoreOp.store 0 "x", StoreOp.store 3 "y", StoreOp.forbid 5 "zz"] rfl hops
  exact ⟨rfl, hops, h1.1, h2.2.1, h1.2.2 sampleBotAllowedX 0 "x" _ [1] rfl⟩

/-! ### C2: the import count -/

theorem countFpsA_cons_absent (mp : List (Nat × Entry)) (fps : List Nat) (fp : Nat)
    (ha : dbGet mp fp = none) :
    countFpsA mp (fp :: fps) = 1 + countFpsA (dbInsert mp fp []) fps := by
  unfold countFpsA
  rw [List.toFinset_cons, Finset.filter_insert, if_pos ha]
  have hfe : (fps.toFinset.filter fun x => dbGet (dbInsert mp fp []) x = none)
      = (fps.toFinset.filter fun x => dbGet mp x = none).erase fp := by
    ext x
    simp only [Finset.mem_filter, Finset.mem_erase, List.mem_toFinset]
    constructor
    · rintro ⟨hx, hdx⟩
      have hxne : x ≠ fp := by
        intro hxe
        rw [hxe, dbGet_dbInsert_self] at hdx
        exact Option.noConfusion hdx
      rw [dbGet_dbInsert_ne _ _ _ _ hxne] at hdx
      exact ⟨hxne, hx, hdx⟩
    · rintro ⟨hxne, hx, hdx⟩
      refine ⟨hx, ?_⟩
      rw [dbGet_dbInsert_ne _ _ _ _ hxne]
      exact hdx
  rw [hfe]
  have h1 : insert fp (fps.toFinset.filter fun x => dbGet mp x = none)
      = insert fp ((fps.toFinset.filter fun x => dbGet mp x = none).erase fp) := by
    ext x
    by_cases hx : x = fp <;> simp [hx]
  rw [h1, Finset.card_insert_of_not_mem (Finset.not_mem_erase _ _)]
  omega

theorem countFpsA_cons_present (mp : List (Nat × Entry)) (fps : List Nat) (fp : Nat)
    (v : Entry) (hp : dbGet mp fp = some v) :
    countFpsA mp (fp :: fps) = countFpsA mp fps := by
  unfold countFpsA
  rw [List.toFinset_cons, Finset.filter_insert, if_neg]
  rw [hp]
  intro h
  exact Option.noConfusion h

theorem countFpsW_cons_absent (mp : List (Nat × Entry)) (fps : List Nat) (fp : Nat)
    (ha : dbGet mp fp = none) :
    countFpsW mp (fp :: fps) = countFpsW (dbInsert mp fp []) fps := by
  unfold countFpsW
  rw [List.filter_cons]
  have hpa : (match dbGet mp fp with
      | some v => !v.isEmpty
      | none => false) = false := by
    rw [ha]
  rw [hpa]
  simp only [Bool.false_eq_true, if_false]
  congr 1
  apply List.filter_congr
  intro x _
  by_cases hxe : x = fp
  · rw [hxe, ha, dbGet_dbInsert_self]
    rfl
  · rw [dbGet_dbInsert_ne _ _ _ _ hxe]

theorem countFpsW_cons_seen (mp : List (Nat × Entry)) (fps : List Nat) (fp : Nat)
    (hp : dbGet mp fp = some []) :
    countFpsW mp (fp :: fps) = countFpsW mp fps := by
  unfold countFpsW
  rw [List.filter_cons]
  have hpa : (match dbGet mp fp with
      | some v => !v.isEmpty
      | none => false) = false := by
    rw [hp]
    rfl
  rw [hpa]
  simp only [Bool.false_eq_true, if_false]

theorem countFpsW_cons_allowed (mp : List (Nat × Entry)) (fps : List Nat) (fp : Nat)
    (v : Entry) (hp : dbGet mp fp = some v) (hv : v ≠ []) :
    countFpsW mp (fp :: fps) = 1 + countFpsW mp fps := by
  unfold countFpsW
  rw [List.filter_cons]
  have hpa : (match dbGet mp fp with
      | some w => !w.isEmpty
      | none => false) = true := by
    rw [hp]
    cases v with
    | nil => exact absurd rfl hv
    | cons a l => rfl
  rw [hpa]
  simp only [if_true, List.length_cons]
  omega

theorem messageFps_cons_message (r : Robot9000) (chat_id : Int) (m : ImportMessage)
    (rest : List ImportMessage) (hty : (m.type == "message") = true) :
    messageFps r chat_id (m :: rest)
      = hash_message r chat_id m.text.moo :: messageFps r chat_id rest := by
  simp [messageFps, List.filter_cons, hty]

theorem messageFps_cons_other (r : Robot9000) (chat_id : Int) (m : ImportMessage)
    (rest : List ImportMessage) (hty : (m.type == "message") = false) :
    messageFps r chat_id (m :: rest) = messageFps r chat_id rest := by
  simp [messageFps, List.filter_cons, hty]

theorem messageFps_congr (r r' : Robot9000) (h : r'.digest = r.digest) (chat_id : Int)
    (msgs : List ImportMessage) :
    messageFps r' chat_id msgs = messageFps r chat_id msgs := by
  simp only [messageFps, hash_message, h]

theorem import_loop_cons_message (r : Robot9000) (chat_id : Int) (m : ImportMessage)
    (rest : List ImportMessage) (hty : (m.type == "message") = true)
    (r1 : Robot9000) (b : Bool) (hsm : store_message r chat_id m.text.moo = (r1, .ok b)) :
    import_loop r chat_id (m :: rest)
      = ((import_loop r1 chat_id rest).1,
          (import_loop r1 chat_id rest).2.map fun n => (if b then 0 else 1) + n) := by
  cases hrest : import_loop r1 chat_id rest with
  | mk r2 res =>
    simp only [import_loop, if_pos hty, hsm, hrest]
    cases res <;> rfl

theorem import_loop_cons_other (r : Robot9000) (chat_id : Int) (m : ImportMessage)
    (rest : List ImportMessage) (hty : (m.type == "message") = false) :
    import_loop r chat_id (m :: rest) = import_loop r chat_id rest := by
  have hne : ¬((m.type == "message") = true) := by
    rw [hty]
    exact Bool.false_ne_true
  simp only [import_loop]
  rw [if_neg hne]

theorem countSpec_cons_absent (r : Robot9000) (chat_id : Int) (m : ImportMessage)
    (rest : List ImportMessage) (hty : (m.type == "message") = true)
    (ha : dbGet r.db.map (hash_message r chat_id m.text.moo) = none) :
    countSpec r chat_id (m :: rest)
      = 1 + countSpec
          { r with db := { r.db with
              map := dbInsert r.db.map (hash_message r chat_id m.text.moo) [] } }
          chat_id rest := by
  unfold countSpec
  rw [messageFps_cons_message r chat_id m rest hty,
    messageFps_congr r { r with db := { r.db with
      map := dbInsert r.db.map (hash_message r chat_id m.text.moo) [] } } rfl chat_id rest,
    countFpsA_cons_absent _ _ _ ha, countFpsW_cons_absent _ _ _ ha]
  show (1 + countFpsA (dbInsert r.db.map (hash_message r chat_id m.text.moo) [])
        (messageFps r chat_id rest))
      + countFpsW (dbInsert r.db.map (hash_message r chat_id m.text.moo) [])
        (messageFps r chat_id rest)
    = 1 + (countFpsA (dbInsert r.db.map (hash_message r chat_id m.text.moo) [])
        (messageFps r chat_id rest)
      + countFpsW (dbInsert r.db.map (hash_message r chat_id m.text.moo) [])
        (messageFps r chat_id rest))
  omega

theorem countSpec_cons_seen (r : Robot9000) (chat_id : Int) (m : ImportMessage)
    (rest : List ImportMessage) (hty : (m.type == "message") = true)
    (hp : dbGet r.db.map (hash_message r chat_id m.text.moo) = some []) :
    countSpec r chat_id (m :: rest) = countSpec r chat_id rest := by
  unfold countSpec
  rw [messageFps_cons_message r chat_id m rest hty,
    countFpsA_cons_present _ _ _ [] hp, countFpsW_cons_seen _ _ _ hp]

theorem countSpec_cons_allowed (r : Robot9000) (chat_id : Int) (m : ImportMessage)
    (rest : List ImportMessage) (v : Entry) (hty : (m.type == "message") = true)
    (hp : dbGet r.db.map (hash_message r chat_id m.text.moo) = some v) (hv : v ≠ []) :
    countSpec r chat_id (m :: rest) = 1 + countSpec r chat_id rest := by
  unfold countSpec
  rw [messageFps_cons_message r chat_id m rest hty,
    countFpsA_cons_present _ _ _ v hp, countFpsW_cons_allowed _ _ _ v hp hv]
  omega

theorem countSpec_cons_other (r : Robot9000) (chat_id : Int) (m : ImportMessage)
    (rest : List ImportMessage) (hty : (m.type == "message") = false) :
    countSpec r chat_id (m :: rest) = countSpec r chat_id rest := by
  unfold countSpec
  rw [messageFps_cons_other r chat_id m rest hty]

/-- The per-record fold reports exactly the closed-form count when no
involved key fails. -/
theorem import_loop_count (chat_id : Int) : ∀ (msgs : List ImportMessage) (r : Robot9000),
    (∀ fp ∈ messageFps r chat_id msgs, r.db.fail fp = false) →
    (import_loop r chat_id msgs).2 = Except.ok (countSpec r chat_id msgs) := by
  intro msgs
  induction msgs with
  | nil =>
    intro r _
    rfl
  | cons m rest ih =>
    intro r hfail
    cases hty : (m.type == "message") with
    | false =>
      rw [import_loop_cons_other r chat_id m rest hty,
        countSpec_cons_other r chat_id m rest hty]
      apply ih r
      intro fp hfp
      apply hfail
      rw [messageFps_cons_other r chat_id m rest hty]
      exact hfp
    | true =>
      have hffp : r.db.fail (hash_message r chat_id m.text.moo) = false := by
        apply hfail
        rw [messageFps_cons_message r chat_id m rest hty]
        exact List.mem_cons_self _ _
      cases hget : dbGet r.db.map (hash_message r chat_id m.text.moo) with
      | none =>
        have hsm := store_message_absent r chat_id m.text.moo hffp hget
        rw [import_loop_cons_message r chat_id m rest hty _ false hsm,
          countSpec_cons_absent r chat_id m rest hty hget]
        have hfr : ∀ fp ∈ messageFps { r with db := { r.db with
            map := dbInsert r.db.map (hash_message r chat_id m.text.moo) [] } } chat_id rest,
            ({ r with db := { r.db with
              map := dbInsert r.db.map (hash_message r chat_id m.text.moo) [] } }
              : Robot9000).db.fail fp = false := by
          intro fp hfp
          rw [messageFps_congr r { r with db := { r.db with
            map := dbInsert r.db.map (hash_message r chat_id m.text.moo) [] } }
            rfl chat_id rest] at hfp
          show r.db.fail fp = false
          apply hfail
          rw [messageFps_cons_message r chat_id m rest hty]
          exact List.mem_cons_of_mem _ hfp
        have ih1 := ih _ hfr
        show (import_loop { r with db := { r.db with
            map := dbInsert r.db.map (hash_message r chat_id m.text.moo) [] } }
            chat_id rest).2.map (fun n => (if false then 0 else 1) + n)
          = _
        rw [ih1]
        rfl
      | some v =>
        have hsm := store_message_present r chat_id m.text.moo v hffp hget
        rw [import_loop_cons_message r chat_id m rest hty _ (v.length == 0) hsm]
        have ih1 := ih r fun fp hfp => hfail fp (by
          rw [messageFps_cons_message r chat_id m rest hty]
          exact List.mem_cons_of_mem _ hfp)
        show (import_loop r chat_id rest).2.map
            (fun n => (if (v.length == 0) then 0 else 1) + n)
          = Except.ok (countSpec r chat_id (m :: rest))
        rw [ih1]
        cases v with
        | nil =>
          rw [countSpec_cons_seen r chat_id m rest hty hget]
          show Except.ok (0 + countSpec r chat_id rest) = _
          rw [Nat.zero_add]
        | cons a l =>
          rw [countSpec_cons_allowed r chat_id m rest (a :: l) hty hget
            (List.cons_ne_nil a l)]
          rfl

/-- Every action emitted by `import_document` is a reply, never a delete:
the size rejection, the parse-failure reply and the success count reply. -/
theorem import_document_no_delete (r : Robot9000) (u : User) (msg : Msg) (d : Document)
    (acts : List BotAction) (h : (import_document r u msg d).2 = Except.ok acts) :
    ∀ a ∈ acts, a.isDelete = false := by
  unfold import_document at h
  split at h
  · have hacts := Except.ok.inj h
    subst hacts
    intro a ha
    rw [List.mem_singleton] at ha
    subst ha
    rfl
  · split at h
    · split at h
      · exact absurd h (by simp)
      · have hacts := Except.ok.inj h
        subst hacts
        intro a ha
        rw [List.mem_singleton] at ha
        subst ha
        rfl
    · have hacts := Except.ok.inj h
      subst hacts
      intro a ha
      rw [List.mem_singleton] at ha
      subst ha
      rfl

/-- C2 counterexample: the store already holds the text `"x"` in the
Allowed state (recorded by override); an import of one message record with
exactly that text (N = K = 1, already-recorded = 1) reports a count of 1,
while the claim predicts K minus already-recorded = 0. -/
theorem C2_counterexample :
    dbGet sampleBotAllowedX.db.map (hash_message sampleBotAllowedX 0 "x") = some [1]
      ∧ (import_loop sampleBotAllowedX 0 [⟨"message", ImportText.simple "x"⟩]).2
          = Except.ok 1
      ∧ (1 : Nat) ≠ 1 - 1 :=
  ⟨rfl, rfl, by decide⟩

/-- C2 (amended): when no involved key fails, the import of a record list
reports a count equal to the number of distinct fingerprints of
message-typed records absent from the store before their first occurrence
plus the number of message-typed record occurrences whose fingerprint is
in the Allowed (non-empty-value) state — records with other type tags do
not affect the count — and no action issued by `import_document` is ever a
delete. -/
theorem C2_import_count (chat_id : Int) :
    (∀ (msgs : List ImportMessage) (r : Robot9000),
        (∀ fp ∈ messageFps r chat_id msgs, r.db.fail fp = false) →
        (import_loop r chat_id msgs).2 = Except.ok (countSpec r chat_id msgs))
      ∧ (∀ (r : Robot9000) (u : User) (msg : Msg) (d : Document) (acts : List BotAction),
          (import_document r u msg d).2 = Except.ok acts →
          ∀ a ∈ acts, a.isDelete = false) :=
  ⟨import_loop_count chat_id,
    fun r u msg d acts h => import_document_no_delete r u msg d acts h⟩

set_option maxRecDepth 100000 in
/-- C2 witness: a concrete archive over a store holding `"x"` Allowed —
two records repeating the allowed text, one skipped non-message record and
one fresh text; and a concrete full `import_document` run. -/
theorem C2_import_count_witness :
    (∀ fp ∈ messageFps sampleBotAllowedX 0
        [⟨"message", ImportText.simple "x"⟩, ⟨"message", ImportText.chunked
          [ImportTextChunk.simple "x"]⟩, ⟨"junk", ImportText.simple "y"⟩,
          ⟨"message", ImportText.simple "a"⟩],
        sampleBotAllowedX.db.fail fp = false)
      ∧ (import_loop sampleBotAllowedX 0
          [⟨"message", ImportText.simple "x"⟩, ⟨"message", ImportText.chunked
            [ImportTextChunk.simple "x"]⟩, ⟨"junk", ImportText.simple "y"⟩,
            ⟨"message", ImportText.simple "a"⟩]).2
          = Except.ok (countSpec sampleBotAllowedX 0
            [⟨"message", ImportText.simple "x"⟩, ⟨"message", ImportText.chunked
              [ImportTextChunk.simple "x"]⟩, ⟨"junk", ImportText.simple "y"⟩,
              ⟨"message", ImportText.simple "a"⟩])
      ∧ (import_document sampleBotAllowedX ⟨1⟩ ⟨0, false, 7, some ⟨1⟩, none, Media.other⟩
          ⟨10, Except.ok ⟨[⟨"message", ImportText.simple "x"⟩]⟩⟩).2
          = Except.ok [BotAction.sendReply 0 7 (importedReplyText 1)]
      ∧ (∀ a ∈ [BotAction.sendReply 0 7 (importedReplyText 1)], a.isDelete = false) := by
  refine ⟨by decide, (C2_import_count 0).1 _ sampleBotAllowedX (by decide), rfl, ?_⟩
  exact (C2_import_count 0).2 sampleBotAllowedX ⟨1⟩ ⟨0, false, 7, some ⟨1⟩, none, Media.other⟩
    ⟨10, Except.ok ⟨[⟨"message", ImportText.simple "x"⟩]⟩⟩
    [BotAction.sendReply 0 7 (importedReplyText 1)] rfl

/-! ### C8: a store failure during the import loop -/

theorem store_message_fails (r : Robot9000) (c : Int) (t : String)
    (hf : r.db.fail (hash_message r c t) = true) :
    store_message r c t = (r, .error .ioError) := by
  simp [store_message, hf]

/-- C8: when the records are `pre ++ m :: post` with `m` a message record
whose fingerprint key fails while every message record of `pre` has a
non-failing key, the per-record fold stops at `m`: the failure is surfaced
as the error component, the final state is exactly the state after
processing `pre` (fingerprints recorded from earlier records of the same
archive remain recorded — no rollback), and the records of `post` are never
processed (the result does not depend on them). -/
theorem C8_store_failure_aborts (chat_id : Int) :
    ∀ (pre : List ImportMessage) (r : Robot9000) (m : ImportMessage)
      (post : List ImportMessage),
      (m.type == "message") = true →
      r.db.fail (hash_message r chat_id m.text.moo) = true →
      (∀ m' ∈ pre, (m'.type == "message") = true →
        r.db.fail (hash_message r chat_id m'.text.moo) = false) →
      import_loop r chat_id (pre ++ m :: post)
        = ((import_loop r chat_id pre).1, Except.error StoreErr.ioError) := by
  intro pre
  induction pre with
  | nil =>
    intro r m post hty hfm _
    show import_loop r chat_id (m :: post) = (r, Except.error StoreErr.ioError)
    simp only [import_loop, if_pos hty, store_message_fails r chat_id m.text.moo hfm]
  | cons p ps ih =>
    intro r m post hty hfm hpre
    rw [show (p :: ps) ++ m :: post = p :: (ps ++ m :: post) from rfl]
    cases htp : (p.type == "message") with
    | false =>
      rw [import_loop_cons_other r chat_id p (ps ++ m :: post) htp,
        show import_loop r chat_id (p :: ps) = import_loop r chat_id ps from
          import_loop_cons_other r chat_id p ps htp]
      exact ih r m post hty hfm fun m' hm' => hpre m' (List.mem_cons_of_mem _ hm')
    | true =>
      have hfp : r.db.fail (hash_message r chat_id p.text.moo) = false :=
        hpre p (List.mem_cons_self _ _) htp
      cases hget : dbGet r.db.map (hash_message r chat_id p.text.moo) with
      | none =>
        have hsm := store_message_absent r chat_id p.text.moo hfp hget
        rw [import_loop_cons_message r chat_id p (ps ++ m :: post) htp _ false hsm,
          import_loop_cons_message r chat_id p ps htp _ false hsm]
        have ih1 := ih { r with db := { r.db with
            map := dbInsert r.db.map (hash_message r chat_id p.text.moo) [] } }
          m post hty hfm (fun m' hm' ht' => hpre m' (List.mem_cons_of_mem _ hm') ht')
        rw [ih1]
        rfl
      | some v =>
        have hsm := store_message_present r chat_id p.text.moo v hfp hget
        rw [import_loop_cons_message r chat_id p (ps ++ m :: post) htp _ (v.length == 0) hsm,
          import_loop_cons_message r chat_id p ps htp _ (v.length == 0) hsm]
        have ih1 := ih r m post hty hfm fun m' hm' => hpre m' (List.mem_cons_of_mem _ hm')
        rw [ih1]
        rfl

set_option maxRecDepth 100000 in
/-- C8 witness: the theorem evaluated on a concrete import whose second
record hits the failing key — the first record stays recorded, the third
is never processed, and the error is surfaced. -/
theorem C8_store_failure_aborts_witness :
    ((⟨"message", ImportText.simple "b"⟩ : ImportMessage).type == "message") = true
      ∧ sampleBotFailB.db.fail
          (hash_message sampleBotFailB 0
            (⟨"message", ImportText.simple "b"⟩ : ImportMessage).text.moo) = true
      ∧ (∀ m' ∈ [(⟨"message", ImportText.simple "a"⟩ : ImportMessage)],
          (m'.type == "message") = true →
          sampleBotFailB.db.fail (hash_message sampleBotFailB 0 m'.text.moo) = false)
      ∧ import_loop sampleBotFailB 0
          ([⟨"message", ImportText.simple "a"⟩]
            ++ ⟨"message", ImportText.simple "b"⟩
            :: [⟨"message", ImportText.simple "zz"⟩])
          = ((import_loop sampleBotFailB 0 [⟨"message", ImportText.simple "a"⟩]).1,
              Except.error StoreErr.ioError) := by
  refine ⟨rfl, rfl, by decide, ?_⟩
  exact C8_store_failure_aborts 0 [⟨"message", ImportText.simple "a"⟩] sampleBotFailB
    ⟨"message", ImportText.simple "b"⟩ [⟨"message", ImportText.simple "zz"⟩]
    rfl rfl (by decide)

/-! ### C4: channel separation of the hash input -/

set_option maxHeartbeats 2000000 in
/-- The eight little-endian base-256 digits of a 64-bit value determine
it. -/
theorem digits64_inj (nx ny : Nat) (hx : nx < 18446744073709551616)
    (hy : ny < 18446744073709551616)
    (h0 : nx / 1 % 256 = ny / 1 % 256) (h1 : nx / 256 % 256 = ny / 256 % 256)
    (h2 : nx / 65536 % 256 = ny / 65536 % 256)
    (h3 : nx / 16777216 % 256 = ny / 16777216 % 256)
    (h4 : nx / 4294967296 % 256 = ny / 4294967296 % 256)
    (h5 : nx / 1099511627776 % 256 = ny / 1099511627776 % 256)
    (h6 : nx / 281474976710656 % 256 = ny / 281474976710656 % 256)
    (h7 : nx / 72057594037927936 % 256 = ny / 72057594037927936 % 256) :
    nx = ny := by
  omega

set_option maxHeartbeats 1000000 in
/-- `i64ToLeBytes` written out as its eight digits. -/
theorem i64ToLeBytes_list (x : Int) :
    i64ToLeBytes x =
      [(x % 2 ^ 64).toNat / 1 % 256, (x % 2 ^ 64).toNat / 256 % 256,
        (x % 2 ^ 64).toNat / 65536 % 256, (x % 2 ^ 64).toNat / 16777216 % 256,
        (x % 2 ^ 64).toNat / 4294967296 % 256, (x % 2 ^ 64).toNat / 1099511627776 % 256,
        (x % 2 ^ 64).toNat / 281474976710656 % 256,
        (x % 2 ^ 64).toNat / 72057594037927936 % 256] := rfl

set_option maxHeartbeats 1000000 in
/-- The hasher input of `hash_message` separates channels: two chat ids
with distinct 64-bit representations feed distinct byte streams to the
digest, for any common text.  (Whether the XXH3-128 digests of these
distinct streams can collide is a property of the external hash crate and
is not settled in this development.) -/
theorem hash_input_channel_injective (x y : Int) (t : String)
    (h : x % (2 ^ 64) ≠ y % (2 ^ 64)) :
    i64ToLeBytes x ++ strBytes t ≠ i64ToLeBytes y ++ strBytes t := by
  intro he
  apply h
  have hp : i64ToLeBytes x = i64ToLeBytes y := List.append_cancel_right he
  rw [i64ToLeBytes_list x, i64ToLeBytes_list y] at hp
  simp only [List.cons.injEq, and_true] at hp
  obtain ⟨h0, h1, h2, h3, h4, h5, h6, h7⟩ := hp
  have hb : (2 : Int) ^ 64 = 18446744073709551616 := by norm_num
  have hnx0 : 0 ≤ x % 2 ^ 64 := Int.emod_nonneg x (by norm_num)
  have hnx1 : x % 2 ^ 64 < 2 ^ 64 := Int.emod_lt_of_pos x (by norm_num)
  have hny0 : 0 ≤ y % 2 ^ 64 := Int.emod_nonneg y (by norm_num)
  have hny1 : y % 2 ^ 64 < 2 ^ 64 := Int.emod_lt_of_pos y (by norm_num)
  have heqn : (x % 2 ^ 64).toNat = (y % 2 ^ 64).toNat :=
    digits64_inj _ _ (by omega) (by omega) h0 h1 h2 h3 h4 h5 h6 h7
  omega
